import Mathlib

/- A verification development for the core of the h3rs hierarchical hexagonal
geospatial indexing library.  The definitions below are shallow embeddings of
the C sources under src/: pure C functions become Lean functions on `Int`,
`Nat` and small structures, the 64-bit cell word becomes a `Nat` manipulated
through explicit division/modulus bit arithmetic, and in-place mutation of
small structs becomes functional update.  Functions that are only declared in
the sources (their implementation files are not part of the repository) are
modelled from the specification and marked as such in their doc comments. -/

set_option maxRecDepth 10000

/-! ## IJK hex coordinates (src/src/lib/coordijk.c, src/src/c/coordijk.c) -/

/-- Integer hex-grid coordinate with three components, from coordijk.h. -/
structure CoordIJK where
  i : Int
  j : Int
  k : Int
  deriving DecidableEq, Repr

/-- From src/src/c/coordijk.c: sets an IJK coordinate to the given components. -/
def _setIJK (i j k : Int) : CoordIJK := ⟨i, j, k⟩

/-- From src/src/lib/coordijk.c: componentwise sum of two IJK coordinates. -/
def _ijkAdd (h1 h2 : CoordIJK) : CoordIJK := ⟨h1.i + h2.i, h1.j + h2.j, h1.k + h2.k⟩

/-- From src/src/lib/coordijk.c: componentwise difference h1 - h2. -/
def _ijkSub (h1 h2 : CoordIJK) : CoordIJK := ⟨h1.i - h2.i, h1.j - h2.j, h1.k - h2.k⟩

/-- From src/src/lib/coordijk.c: uniform scaling of an IJK coordinate. -/
def _ijkScale (c : CoordIJK) (factor : Int) : CoordIJK :=
  ⟨c.i * factor, c.j * factor, c.k * factor⟩

/-- Modelled from the spec: `_ijkNormalize` is declared in src/src/h/coordijk.h but its
implementation is not among the sources.  Spec section 3: normalization subtracts
`min(i,j,k)` from each component, producing the unique representative with
`min(i,j,k) = 0` of the equivalence class modulo (1,1,1). -/
def _ijkNormalize (c : CoordIJK) : CoordIJK :=
  let m := min c.i (min c.j c.k)
  ⟨c.i - m, c.j - m, c.k - m⟩

/-- From src/src/lib/coordijk.c: aperture-7 counter-clockwise down-step.  The res r
unit vectors expressed in res r+1 are iVec = (3,0,1), jVec = (1,3,0), kVec = (0,1,3);
the input is the coefficient vector and the result is normalized. -/
def _downAp7 (ijk : CoordIJK) : CoordIJK :=
  let iVec := _ijkScale ⟨3, 0, 1⟩ ijk.i
  let jVec := _ijkScale ⟨1, 3, 0⟩ ijk.j
  let kVec := _ijkScale ⟨0, 1, 3⟩ ijk.k
  _ijkNormalize (_ijkAdd (_ijkAdd iVec jVec) kVec)

/-- From src/src/lib/coordijk.c: aperture-7 clockwise down-step, with
iVec = (3,1,0), jVec = (0,3,1), kVec = (1,0,3). -/
def _downAp7r (ijk : CoordIJK) : CoordIJK :=
  let iVec := _ijkScale ⟨3, 1, 0⟩ ijk.i
  let jVec := _ijkScale ⟨0, 3, 1⟩ ijk.j
  let kVec := _ijkScale ⟨1, 0, 3⟩ ijk.k
  _ijkNormalize (_ijkAdd (_ijkAdd iVec jVec) kVec)

/-- From src/src/c/coordijk.c: rotate an IJK coordinate 60 degrees counter-clockwise
(unit-vector images iVec = (1,1,0), jVec = (0,1,1), kVec = (1,0,1)), then normalize. -/
def _ijkRotate60ccw (ijk : CoordIJK) : CoordIJK :=
  let iVec := _ijkScale ⟨1, 1, 0⟩ ijk.i
  let jVec := _ijkScale ⟨0, 1, 1⟩ ijk.j
  let kVec := _ijkScale ⟨1, 0, 1⟩ ijk.k
  _ijkNormalize (_ijkAdd (_ijkAdd iVec jVec) kVec)

/-- From src/src/c/coordijk.c: rotate an IJK coordinate 60 degrees clockwise
(unit-vector images iVec = (1,0,1), jVec = (1,1,0), kVec = (0,1,1)), then normalize. -/
def _ijkRotate60cw (ijk : CoordIJK) : CoordIJK :=
  let iVec := _ijkScale ⟨1, 0, 1⟩ ijk.i
  let jVec := _ijkScale ⟨1, 1, 0⟩ ijk.j
  let kVec := _ijkScale ⟨0, 1, 1⟩ ijk.k
  _ijkNormalize (_ijkAdd (_ijkAdd iVec jVec) kVec)

/-- Definition following the words of the spec (section 4.1) for claim C7: the image of
a coordinate under the column matrix whose columns are c1, c2, c3, followed by
normalization.  This is the spec-side description to be compared with the source
functions above. -/
def specColumnMatrixApply (c1 c2 c3 v : CoordIJK) : CoordIJK :=
  _ijkNormalize (_ijkAdd (_ijkAdd (_ijkScale c1 v.i) (_ijkScale c2 v.j)) (_ijkScale c3 v.k))

/-! ## The 64-bit cell word (src/src/h/h3Index.h and the spec bit layout) -/

/-- Extract the `w`-bit field of `h` that starts at bit `off`.  This is the arithmetic
form of the C shift-and-mask read used by the H3_GET accessor macros. -/
def getBits (h off w : Nat) : Nat := h / 2 ^ off % 2 ^ w

/-- Overwrite the `w`-bit field of `h` starting at bit `off` with `v`.  This is the
arithmetic form of the C clear-mask-then-or used by the H3_SET accessor macros; the two
agree whenever `v < 2 ^ w`, which holds at every call site embedded in this file. -/
def setBits (h off w v : Nat) : Nat :=
  h % 2 ^ off + v * 2 ^ off + h / 2 ^ (off + w) * 2 ^ (off + w)

/-- From src/src/h/h3Index.h (H3_GET_INDEX_DIGIT): the 3-bit digit for resolution `r`
sits at bit offset (15 - r) * 3. -/
def H3_GET_INDEX_DIGIT (h r : Nat) : Nat := getBits h ((15 - r) * 3) 3

/-- From src/src/h/h3Index.h (H3_SET_INDEX_DIGIT). -/
def H3_SET_INDEX_DIGIT (h r digit : Nat) : Nat := setBits h ((15 - r) * 3) 3 digit

/-- From src/src/h/h3Index.h (H3_GET_RESERVED_BITS): 3-bit reserved field at bit 56. -/
def H3_GET_RESERVED_BITS (h : Nat) : Nat := getBits h 56 3

/-- From src/src/h/h3Index.h (H3_SET_RESERVED_BITS). -/
def H3_SET_RESERVED_BITS (h v : Nat) : Nat := setBits h 56 3 v

/-- Modelled from the spec: H3_GET_RESOLUTION.  The accessor macro is not among the
sources; the spec bit layout (section 3) places the 4-bit resolution at bit 52. -/
def H3_GET_RESOLUTION (h : Nat) : Nat := getBits h 52 4

/-- Modelled from the spec: H3_SET_RESOLUTION (4-bit field at bit 52). -/
def H3_SET_RESOLUTION (h v : Nat) : Nat := setBits h 52 4 v

/-- Modelled from the spec: H3_GET_MODE (4-bit mode field at bit 59). -/
def H3_GET_MODE (h : Nat) : Nat := getBits h 59 4

/-- Modelled from the spec: H3_SET_MODE. -/
def H3_SET_MODE (h v : Nat) : Nat := setBits h 59 4 v

/-- Modelled from the spec: H3_GET_BASE_CELL (7-bit base cell field at bit 45). -/
def H3_GET_BASE_CELL (h : Nat) : Nat := getBits h 45 7

/-- Modelled from the spec: H3_SET_BASE_CELL. -/
def H3_SET_BASE_CELL (h v : Nat) : Nat := setBits h 45 7 v

/-- Modelled from the spec: H3_GET_HIGH_BIT (the reserved top bit, bit 63). -/
def H3_GET_HIGH_BIT (h : Nat) : Nat := getBits h 63 1

/-- From src/src/c/h3Index.c (compact): `h & H3_RESERVED_MASK_NEGATIVE`, clearing the
3-bit reserved field at bits 56..58. -/
def clearReservedBits (h : Nat) : Nat := h % 2 ^ 56 + h / 2 ^ 59 * 2 ^ 59

/-! ## Cell index helpers (src/src/c/h3Index.c and spec-modelled declarations) -/

/-- From src/src/h/h3Index.h: H3_NULL, the invalid/placeholder index. -/
def H3_NULL : Nat := 0

/-- Modelled from the spec: H3_INIT, the base word from which setH3Index starts.  Per
the spec layout invariants (section 3) every digit slot of an index must be 7 beyond
its resolution; H3_INIT is the word with all fifteen digits 7 and every other field 0. -/
def H3_INIT : Nat := 2 ^ 45 - 1

/-- Modelled from the spec: the set of the 12 pentagon base cells.  The baseCellData
table is constant data absent from src/ (the spec fixes only that exactly 12 of the
122 base cells are pentagons); the 12 base cell numbers here are the reference values,
and src/src/testapps/testH3ToChildren.c confirms that base cell 4 is a pentagon. -/
def pentagonBaseCells : List Nat := [4, 14, 24, 38, 49, 58, 63, 72, 83, 97, 107, 117]

/-- Modelled from the spec: `_isBaseCellPentagon` reads the isPentagon flag of the
base cell data table. -/
def _isBaseCellPentagon (baseCell : Nat) : Bool := pentagonBaseCells.contains baseCell

/-- Modelled from the spec: `_h3LeadingNonZeroDigit` (declared in src/src/h/h3Index.h,
implementation absent): the first digit slot from 1 up to the resolution of the index
that is not CENTER (0), or CENTER if there is none. -/
def _h3LeadingNonZeroDigit (h : Nat) : Nat :=
  match (List.range' 1 (H3_GET_RESOLUTION h)).find? (fun r => H3_GET_INDEX_DIGIT h r != 0) with
  | some r => H3_GET_INDEX_DIGIT h r
  | none => 0

/-- Modelled from the spec: h3IsPentagon (implementation absent from src/) — an index
is a pentagon iff its base cell is one of the 12 pentagon base cells and its leading
non-zero digit is CENTER. -/
def h3IsPentagon (h : Nat) : Bool :=
  _isBaseCellPentagon (H3_GET_BASE_CELL h) && _h3LeadingNonZeroDigit h == 0

/-- Modelled from the spec: h3IsValid (implementation absent from src/).  Spec
section 7: check the high bit, the mode, the zero reserved field, the base cell bound,
that no digit at a slot up to the resolution is 7, the deleted-K invariant for
pentagons, and that every digit beyond the resolution is 7.  The reserved-bits part is
also pinned by src/src/testapps/testH3Index.c (h3IsValidReservedBits). -/
def h3IsValid (h : Nat) : Bool :=
  H3_GET_HIGH_BIT h == 0 && H3_GET_MODE h == 1 && H3_GET_RESERVED_BITS h == 0 &&
  decide (H3_GET_BASE_CELL h < 122) &&
  ((List.range' 1 (H3_GET_RESOLUTION h)).all fun r => H3_GET_INDEX_DIGIT h r != 7) &&
  (!_isBaseCellPentagon (H3_GET_BASE_CELL h) || _h3LeadingNonZeroDigit h != 1) &&
  ((List.range' (H3_GET_RESOLUTION h + 1) (15 - H3_GET_RESOLUTION h)).all
    fun r => H3_GET_INDEX_DIGIT h r == 7)

/-- Modelled from the spec: `_isValidChildRes` — spec section 4.4: true iff
0 ≤ parentRes ≤ childRes ≤ 15. -/
def _isValidChildRes (parentRes childRes : Int) : Bool :=
  decide (0 ≤ parentRes ∧ parentRes ≤ childRes ∧ childRes ≤ 15)

/-- Modelled from the spec: h3ToParent (implementation absent from src/) — spec
section 4.4: for 0 ≤ parentRes ≤ res(h), the index equal to h with resolution set to
parentRes and the digit slots from parentRes+1 up to res(h) set to 7 (slots beyond
res(h) already hold 7 in a valid index); H3_NULL on a nonsensical parent resolution. -/
def h3ToParent (h : Nat) (parentRes : Int) : Nat :=
  let childRes : Int := H3_GET_RESOLUTION h
  if parentRes > childRes then H3_NULL
  else if parentRes = childRes then h
  else if parentRes < 0 ∨ parentRes > 15 then H3_NULL
  else
    (List.range (childRes - parentRes).toNat).foldl
      (fun acc idx => H3_SET_INDEX_DIGIT acc (parentRes.toNat + 1 + idx) 7)
      (H3_SET_RESOLUTION h parentRes.toNat)

/-- Modelled from the spec: maxH3ToChildrenSize (implementation absent from src/) —
spec section 4.4: the hexagon (padded) upper bound 7^(childRes - res(h)), or 0 when the
child resolution is not valid.  h3ToChildren in src/src/c/h3Index.c steps its output
buffer by one seventh of this bound, so this is the power-of-7 padded size. -/
def maxH3ToChildrenSize (h : Nat) (childRes : Int) : Nat :=
  if _isValidChildRes (H3_GET_RESOLUTION h) childRes then
    7 ^ (childRes - (H3_GET_RESOLUTION h : Int)).toNat
  else 0

/-- From src/src/c/h3Index.c: makeDirectChild bumps the resolution by one and writes
the given cell number into the new digit slot. -/
def makeDirectChild (h : Nat) (cellNumber : Nat) : Nat :=
  H3_SET_INDEX_DIGIT (H3_SET_RESOLUTION h (H3_GET_RESOLUTION h + 1))
    (H3_GET_RESOLUTION h + 1) cellNumber

/-- Modelled from the spec: setH3Index (declared in src/src/h/h3Index.h, implementation
absent): start from H3_INIT, set mode CELL, the resolution, the base cell, and write
initDigit into every digit slot from 1 up to the resolution. -/
def setH3Index (res baseCell initDigit : Nat) : Nat :=
  (List.range' 1 res).foldl (fun acc r => H3_SET_INDEX_DIGIT acc r initDigit)
    (H3_SET_BASE_CELL (H3_SET_RESOLUTION (H3_SET_MODE H3_INIT 1) res) baseCell)

/-! ## h3ToChildren (src/src/c/h3Index.c)

The C function writes into a caller-provided buffer through a moving pointer.  The
embedding carries the buffer as a list and the pointer as an absolute position; a
write through the pointer becomes `List.set`.  The bounded recursion of the C function
(depth at most childRes - res ≤ 15) is expressed with a fuel argument that the
top-level wrapper instantiates beyond that bound. -/

/-- The while loop in the pentagon branch of h3ToChildren: write `n` copies of the
value `v` (H3_NULL in the caller) at consecutive positions starting at `pos`. -/
def setRange : List Nat → Nat → Nat → Nat → List Nat
  | buf, _, 0, _ => buf
  | buf, pos, n + 1, v => setRange (buf.set pos v) (pos + 1) n v

/-- From src/src/c/h3Index.c: h3ToChildren, with the output pointer made explicit as a
position into the buffer list. -/
def h3ToChildrenGo : Nat → Nat → Int → List Nat → Nat → List Nat
  | 0, _, _, buf, _ => buf
  | fuel + 1, h, childRes, buf, pos =>
    let parentRes : Int := H3_GET_RESOLUTION h
    if !_isValidChildRes parentRes childRes then buf
    else if parentRes = childRes then buf.set pos h
    else
      let bufferChildStep := maxH3ToChildrenSize h childRes / 7
      let isAPentagon := h3IsPentagon h
      (List.range 7).foldl
        (fun b i =>
          if isAPentagon && i == 1 then
            setRange b (pos + i * bufferChildStep) bufferChildStep H3_NULL
          else
            h3ToChildrenGo fuel (makeDirectChild h i) childRes b (pos + i * bufferChildStep))
        buf

/-- h3ToChildren writing at the start of the given output buffer.  The fuel 16 exceeds
the maximal possible recursion depth childRes - res(h) ≤ 15. -/
def h3ToChildren (h : Nat) (childRes : Int) (children : List Nat) : List Nat :=
  h3ToChildrenGo 16 h childRes children 0

/-! ## Unidirectional edges (src/src/c/h3UniEdge.c) -/

/-- Modelled from the spec: getOriginH3IndexFromUnidirectionalEdge (implementation
absent from src/) — spec section 4.7: reset the mode to CELL and the reserved field to
0; H3_NULL when the mode is not UNI_EDGE. -/
def getOriginH3IndexFromUnidirectionalEdge (edge : Nat) : Nat :=
  if H3_GET_MODE edge ≠ 2 then H3_NULL
  else H3_SET_RESERVED_BITS (H3_SET_MODE edge 1) 0

/-- From src/src/c/h3UniEdge.c: h3UnidirectionalEdgeIsValid.  The C int result is kept
(1 valid, 0 invalid).  The direction check rejects values ≤ CENTER_DIGIT (0) and
≥ NUM_DIGITS (7); the K direction (1) is rejected only for pentagon origins. -/
def h3UnidirectionalEdgeIsValid (edge : Nat) : Int :=
  if H3_GET_MODE edge ≠ 2 then 0
  else
    let neighborDirection := H3_GET_RESERVED_BITS edge
    if neighborDirection ≤ 0 ∨ 7 ≤ neighborDirection then 0
    else
      let origin := getOriginH3IndexFromUnidirectionalEdge edge
      if h3IsPentagon origin && neighborDirection == 1 then 0
      else if h3IsValid origin then 1 else 0

/-- Definition following the words of the spec for claim C5: mode UNI_EDGE, direction
in 2..6, direction not K when the origin is a pentagon, and a valid origin. -/
def specEdgeValidProp (edge : Nat) : Prop :=
  H3_GET_MODE edge = 2 ∧ 2 ≤ H3_GET_RESERVED_BITS edge ∧ H3_GET_RESERVED_BITS edge ≤ 6 ∧
  (h3IsPentagon (getOriginH3IndexFromUnidirectionalEdge edge) = true →
    H3_GET_RESERVED_BITS edge ≠ 1) ∧
  h3IsValid (getOriginH3IndexFromUnidirectionalEdge edge) = true

instance (edge : Nat) : Decidable (specEdgeValidProp edge) := by
  unfold specEdgeValidProp; infer_instance

/-! ## Face IJK and overage adjustment (src/src/c/faceijk.c) -/

/-- From faceijk.h (via the spec data model): an IJK coordinate anchored to one of the
20 icosahedral faces. -/
structure FaceIJK where
  face : Int
  coord : CoordIJK
  deriving DecidableEq, Repr

/-- From faceijk.h (via the spec data model): a face neighbor record — the neighbor
face, the IJK translation vector and the number of CCW 60-degree rotations. -/
structure FaceOrientIJK where
  face : Int
  translate : CoordIJK
  ccwRot60 : Nat
  deriving DecidableEq, Repr

/-- Overage results of _adjustOverageClassII, per its doc comment in
src/src/c/faceijk.c: 0 no overage, 1 on a face edge, 2 overage on a new face. -/
inductive Overage where
  | NO_OVERAGE
  | FACE_EDGE
  | NEW_FACE
  deriving DecidableEq, Repr

/-- Modelled from the spec: the face-edge selector constants IJ, KI, JK used to index
the neighbor table (faceijk.h is absent from src/). -/
def IJ : Nat := 1

/-- Modelled from the spec: see IJ. -/
def KI : Nat := 2

/-- Modelled from the spec: see IJ. -/
def JK : Nat := 3

/-- Modelled from the spec: the faceNeighbors table is constant data absent from src/;
the spec (sections 1 and 3) fixes only its shape — for each face and crossed edge a
neighbor face, a CCW 60-degree rotation count and a translation vector.  Every entry is
left at a default record here: no theorem in this file depends on the values, since the
claims settled below only exercise the branches of _adjustOverageClassII that do not
consult the table. -/
def faceNeighbors (_face : Int) (_edge : Nat) : FaceOrientIJK := ⟨0, ⟨0, 0, 0⟩, 0⟩

/-- Modelled from the spec: the maxDimByCIIres table (constant data absent from src/).
The values are the reference constants for the Class II resolutions 0,2,...,16 with -1
at the odd resolutions; no theorem below depends on the particular values. -/
def maxDimByCIIres : List Int :=
  [2, -1, 14, -1, 98, -1, 686, -1, 4802, -1, 33614, -1, 235298, -1, 1647086, -1, 11529602]

/-- Modelled from the spec: the unitScaleByCIIres table (constant data absent from
src/), the reference powers of 7 at Class II resolutions; no theorem below depends on
the particular values. -/
def unitScaleByCIIres : List Int :=
  [1, -1, 7, -1, 49, -1, 343, -1, 2401, -1, 16807, -1, 117649, -1, 823543, -1, 5764801]

/-- From src/src/c/faceijk.c: _adjustOverageClassII.  The in-place update of the
FaceIJK argument becomes a returned pair (overage, adjusted FaceIJK); the int flags
pentLeading4 and substrate (always 0 or 1 at the call sites) become Bool. -/
def _adjustOverageClassII (fijk : FaceIJK) (res : Nat) (pentLeading4 substrate : Bool) :
    Overage × FaceIJK :=
  let ijk := fijk.coord
  let maxDim0 := maxDimByCIIres.getD res 0
  let maxDim := if substrate then maxDim0 * 3 else maxDim0
  if substrate && (ijk.i + ijk.j + ijk.k == maxDim) then (Overage.FACE_EDGE, fijk)
  else if ijk.i + ijk.j + ijk.k > maxDim then
    let oriented : FaceOrientIJK × CoordIJK :=
      if ijk.k > 0 then
        if ijk.j > 0 then (faceNeighbors fijk.face JK, ijk)
        else
          -- ik quadrant, with the pentagonal missing-sequence adjustment
          let fijkOrient := faceNeighbors fijk.face KI
          let ijk2 :=
            if pentLeading4 then
              let origin := _setIJK maxDim 0 0
              _ijkAdd (_ijkRotate60cw (_ijkSub ijk origin)) origin
            else ijk
          (fijkOrient, ijk2)
      else (faceNeighbors fijk.face IJ, ijk)
    let fijkOrient := oriented.1
    let ijk3 := _ijkRotate60ccw^[fijkOrient.ccwRot60] oriented.2
    let unitScale0 := unitScaleByCIIres.getD res 0
    let unitScale := if substrate then unitScale0 * 3 else unitScale0
    let ijk4 := _ijkNormalize (_ijkAdd ijk3 (_ijkScale fijkOrient.translate unitScale))
    let overage :=
      if substrate && (ijk4.i + ijk4.j + ijk4.k == maxDim) then Overage.FACE_EDGE
      else Overage.NEW_FACE
    (overage, ⟨fijkOrient.face, ijk4⟩)
  else (Overage.NO_OVERAGE, fijk)

/-! ## uncompact and maxUncompactSize (src/src/c/h3Index.c) -/

/-- From src/src/c/h3Index.c: uncompact.  The output buffer and the running offset are
explicit; the result pairs the C return code with the final buffer contents. -/
def uncompactGo : List Nat → List Nat → Nat → Int → Int → Int × List Nat
  | [], buf, _, _, _ => (0, buf)
  | curr :: rest, buf, outOffset, maxHexes, res =>
    if curr = 0 then uncompactGo rest buf outOffset maxHexes res
    else if (outOffset : Int) ≥ maxHexes then (-1, buf)
    else
      let currentRes : Int := H3_GET_RESOLUTION curr
      if !_isValidChildRes currentRes res then (-2, buf)
      else if currentRes = res then
        uncompactGo rest (buf.set outOffset curr) (outOffset + 1) maxHexes res
      else
        let numHexesToGen := maxH3ToChildrenSize curr res
        if (outOffset : Int) + numHexesToGen > maxHexes then (-1, buf)
        else
          uncompactGo rest (h3ToChildrenGo 16 curr res buf outOffset)
            (outOffset + numHexesToGen) maxHexes res

/-- uncompact on a whole input list, starting at offset 0. -/
def uncompact (compactedSet : List Nat) (h3Set : List Nat) (maxHexes res : Int) :
    Int × List Nat :=
  uncompactGo compactedSet h3Set 0 maxHexes res

/-- From src/src/c/h3Index.c: maxUncompactSize, with the running total explicit. -/
def maxUncompactSizeGo : List Nat → Int → Int → Int
  | [], _, acc => acc
  | curr :: rest, res, acc =>
    if curr = 0 then maxUncompactSizeGo rest res acc
    else if !_isValidChildRes (H3_GET_RESOLUTION curr) res then -1
    else if (H3_GET_RESOLUTION curr : Int) = res then maxUncompactSizeGo rest res (acc + 1)
    else maxUncompactSizeGo rest res (acc + maxH3ToChildrenSize curr res)

/-- maxUncompactSize on a whole input list. -/
def maxUncompactSize (compactedSet : List Nat) (res : Int) : Int :=
  maxUncompactSizeGo compactedSet res 0

/-! ## compact (src/src/c/h3Index.c)

The hash table becomes a list of slots, the open-addressing while loops become
fuel-bounded recursions (the C loops already bound themselves through loopCount, and
the fuel is chosen beyond that bound), and the early error returns become `Except`
errors: -1 COMPACT_LOOP_EXCEEDED, -2 COMPACT_DUPLICATE.  Allocation always succeeds in
the embedding, so COMPACT_ALLOC_FAILED (-3) does not arise. -/

/-- The inner while loop of the first (hashing) pass of compact: probe from `loc` for a
free slot or a slot holding the same parent, maintaining the sibling counter in the
reserved bits of the parent being inserted. -/
def compactProbe1 : Nat → List Nat → Nat → Nat → Nat → Nat → Except Int (List Nat)
  | 0, _, _, _, _, _ => .error (-1)
  | fuel + 1, hashSet, loc, parent, loopCount, numRemaining =>
    if hashSet.getD loc 0 = 0 then .ok (hashSet.set loc parent)
    else if loopCount > numRemaining then .error (-1)
    else
      let tempIndex := clearReservedBits (hashSet.getD loc 0)
      if tempIndex = parent then
        let count := H3_GET_RESERVED_BITS (hashSet.getD loc 0) + 1
        let limitCount := if h3IsPentagon (clearReservedBits tempIndex) then 6 else 7
        if count + 1 > limitCount then .error (-2)
        else
          compactProbe1 fuel (hashSet.set loc 0) loc (H3_SET_RESERVED_BITS parent count)
            (loopCount + 1) numRemaining
      else compactProbe1 fuel hashSet ((loc + 1) % numRemaining) parent (loopCount + 1)
        numRemaining

/-- The first pass of a compact round: hash the parent of every remaining index into
the table (early error returns propagate through the Except bind). -/
def compactPass1 : List Nat → List Nat → Int → Nat → Except Int (List Nat)
  | [], hashSet, _, _ => .ok hashSet
  | curr :: rest, hashSet, parentRes, numRemaining =>
    if curr ≠ 0 then
      let parent := h3ToParent curr parentRes
      compactProbe1 (numRemaining + 2) hashSet (parent % numRemaining) parent 0
          numRemaining >>= fun hashSet2 =>
        compactPass1 rest hashSet2 parentRes numRemaining
    else compactPass1 rest hashSet parentRes numRemaining

/-- The scan of the hash table that collects parents with a complete set of children
(7, with the deleted K child of a pentagon counting as implicitly present); for
pentagon parents the incremented count is written back into the table. -/
def compactableScanStep (st : List Nat × List Nat) (i : Nat) : List Nat × List Nat :=
  let hs := st.1
  let v := hs.getD i 0
  if v = 0 then st
  else
    let count0 := H3_GET_RESERVED_BITS v + 1
    let updated : List Nat × Nat :=
      if h3IsPentagon (clearReservedBits v) then
        (hs.set i (H3_SET_RESERVED_BITS v count0), count0 + 1)
      else (hs, count0)
    if updated.2 = 7 then
      (updated.1, st.2 ++ [clearReservedBits (updated.1.getD i 0)])
    else (updated.1, st.2)

/-- All iterations of the compactable scan over the table slots 0..numRemaining-1. -/
def compactableScan (numRemaining : Nat) (hashSet : List Nat) : List Nat × List Nat :=
  (List.range numRemaining).foldl compactableScanStep (hashSet, [])

/-- The do-while probe of the second pass of compact, deciding whether an index is
uncompactable (its parent did not reach a full count of 7). -/
def compactProbe2 : Nat → List Nat → Nat → Nat → Nat → Nat → Except Int Bool
  | 0, _, _, _, _, _ => .error (-1)
  | fuel + 1, hashSet, loc, parent, loopCount, numRemaining =>
    if loopCount > numRemaining then .error (-1)
    else
      let tempIndex := clearReservedBits (hashSet.getD loc 0)
      if tempIndex = parent then
        .ok (!(H3_GET_RESERVED_BITS (hashSet.getD loc 0) + 1 == 7))
      else
        let loc2 := (loc + 1) % numRemaining
        if hashSet.getD loc2 0 = parent then .ok true
        else compactProbe2 fuel hashSet loc2 parent (loopCount + 1) numRemaining

/-- The second pass of a compact round: collect, in input order, the remaining indexes
whose parent is not fully populated; they go to the output. -/
def compactPass2 : List Nat → List Nat → Int → Nat → Except Int (List Nat)
  | [], _, _, _ => .ok []
  | curr :: rest, hashSet, parentRes, numRemaining =>
    if curr ≠ 0 then
      let parent := h3ToParent curr parentRes
      compactProbe2 (numRemaining + 2) hashSet (parent % numRemaining) parent 0
          numRemaining >>= fun isUncompactable =>
        compactPass2 rest hashSet parentRes numRemaining >>= fun outs =>
          .ok (if isUncompactable then curr :: outs else outs)
    else compactPass2 rest hashSet parentRes numRemaining

/-- The while loop of compact over successive rounds.  One round per coarser
resolution; the fuel 20 exceeds the maximal possible number of rounds (res ≤ 15 plus
the final emptying rounds). -/
def compactLoop : Nat → List Nat → List Nat → Except Int (List Nat)
  | 0, _, _ => .error (-1)
  | fuel + 1, remaining, outAcc =>
    if remaining = [] then .ok outAcc
    else
      let numRemaining := remaining.length
      let parentRes : Int := (H3_GET_RESOLUTION (remaining.headD 0) : Int) - 1
      compactPass1 remaining (List.replicate numRemaining 0) parentRes
          numRemaining >>= fun hashSet1 =>
        if numRemaining / 6 = 0 then .ok (outAcc ++ remaining)
        else
          let scanned := compactableScan numRemaining hashSet1
          compactPass2 remaining scanned.1 parentRes numRemaining >>= fun uncompactable =>
            compactLoop fuel scanned.2 (outAcc ++ uncompactable)

/-- From src/src/c/h3Index.c: compact.  `.ok` carries the output set (the prefix of
the C output buffer that is written) and `.error` the C error code. -/
def compact (h3Set : List Nat) : Except Int (List Nat) :=
  if h3Set.length = 0 then .ok []
  else if H3_GET_RESOLUTION (h3Set.headD 0) = 0 then .ok h3Set
  else compactLoop 20 h3Set []

/-! ## Bitfield accessor lemmas -/

theorem getBits_lt (h off w : Nat) : getBits h off w < 2 ^ w :=
  Nat.mod_lt _ (Nat.pos_pow_of_pos w (by norm_num))

theorem getBits_setBits_self (h off w v : Nat) (hv : v < 2 ^ w) :
    getBits (setBits h off w v) off w = v := by
  unfold getBits setBits
  have hoff : 0 < 2 ^ off := Nat.pos_pow_of_pos off (by norm_num)
  have hmod : h % 2 ^ off < 2 ^ off := Nat.mod_lt _ hoff
  have hsplit : 2 ^ (off + w) = 2 ^ off * 2 ^ w := pow_add 2 off w
  rw [hsplit]
  have : h % 2 ^ off + v * 2 ^ off + h / (2 ^ off * 2 ^ w) * (2 ^ off * 2 ^ w)
      = h % 2 ^ off + (v + h / (2 ^ off * 2 ^ w) * 2 ^ w) * 2 ^ off := by ring
  rw [this, Nat.add_mul_div_right _ _ hoff, Nat.div_eq_of_lt hmod, Nat.zero_add,
    Nat.add_mul_mod_self_right, Nat.mod_eq_of_lt hv]

theorem getBits_setBits_high (h off w v off2 w2 : Nat) (hv : v < 2 ^ w)
    (hle : off + w ≤ off2) :
    getBits (setBits h off w v) off2 w2 = getBits h off2 w2 := by
  unfold getBits setBits
  obtain ⟨d, hd⟩ := Nat.exists_eq_add_of_le hle
  have hoff : 0 < 2 ^ off := Nat.pos_pow_of_pos off (by norm_num)
  have hoffw : 0 < 2 ^ (off + w) := Nat.pos_pow_of_pos _ (by norm_num)
  have hmod : h % 2 ^ off < 2 ^ off := Nat.mod_lt _ hoff
  have hlow : h % 2 ^ off + v * 2 ^ off < 2 ^ (off + w) := by
    have h1 : v + 1 ≤ 2 ^ w := hv
    calc h % 2 ^ off + v * 2 ^ off < 2 ^ off + v * 2 ^ off := by omega
      _ = (v + 1) * 2 ^ off := by ring
      _ ≤ 2 ^ w * 2 ^ off := Nat.mul_le_mul_right _ h1
      _ = 2 ^ (off + w) := by rw [pow_add]; ring
  have key : (h % 2 ^ off + v * 2 ^ off + h / 2 ^ (off + w) * 2 ^ (off + w)) / 2 ^ (off + w)
      = h / 2 ^ (off + w) := by
    rw [Nat.add_mul_div_right _ _ hoffw, Nat.div_eq_of_lt hlow, Nat.zero_add]
  have hsplit : 2 ^ off2 = 2 ^ (off + w) * 2 ^ d := by rw [hd, pow_add]
  rw [hsplit, ← Nat.div_div_eq_div_mul, key, Nat.div_div_eq_div_mul, ← pow_add, ← hd]

theorem getBits_setBits_low (h off w v off2 w2 : Nat) (hle : off2 + w2 ≤ off) :
    getBits (setBits h off w v) off2 w2 = getBits h off2 w2 := by
  have hmodeq : setBits h off w v % 2 ^ off = h % 2 ^ off := by
    unfold setBits
    have h1 : h / 2 ^ (off + w) * 2 ^ (off + w)
        = h / 2 ^ (off + w) * 2 ^ w * 2 ^ off := by rw [pow_add]; ring
    rw [h1, Nat.add_mul_mod_self_right, Nat.add_mul_mod_self_right,
      Nat.mod_mod_of_dvd _ dvd_rfl]
  -- a read of a field wholly below bit `off` only depends on the value modulo 2 ^ off
  have low_read : ∀ x y : Nat, x % 2 ^ off = y % 2 ^ off →
      getBits x off2 w2 = getBits y off2 w2 := by
    intro x y hxy
    unfold getBits
    have hdvd : (2 : Nat) ^ (off2 + w2) ∣ 2 ^ off := pow_dvd_pow 2 hle
    have hx : x / 2 ^ off2 % 2 ^ w2 = x % 2 ^ (off2 + w2) / 2 ^ off2 := by
      rw [pow_add, Nat.mod_mul_right_div_self]
    have hy : y / 2 ^ off2 % 2 ^ w2 = y % 2 ^ (off2 + w2) / 2 ^ off2 := by
      rw [pow_add, Nat.mod_mul_right_div_self]
    have hxm : x % 2 ^ (off2 + w2) = y % 2 ^ (off2 + w2) := by
      rw [← Nat.mod_mod_of_dvd x hdvd, ← Nat.mod_mod_of_dvd y hdvd, hxy]
    rw [hx, hy, hxm]
  exact low_read _ _ hmodeq

/-! ## Shared list helpers -/

theorem getD_replicate_zero (n i : Nat) : (List.replicate n (0 : Nat)).getD i 0 = 0 := by
  simp [List.getD_eq_getElem?_getD, List.getElem?_replicate]
  split <;> rfl

theorem getD_set_self (l : List Nat) (i v : Nat) (hi : i < l.length) :
    (l.set i v).getD i 0 = v := by
  simp [List.getD_eq_getElem?_getD, List.getElem?_set_self, hi]

/-! ## Claim theorems -/

/-- C7: counterexample.  The claim assigns _downAp7 the column matrix
(3,1,0),(0,3,1),(1,0,3) and _downAp7r the column matrix (3,0,1),(1,3,0),(0,1,3); at the
input (1,0,0) the source functions produce (3,0,1) and (3,1,0) respectively, refuting
both assignments. -/
theorem C7_counterexample :
    ¬(_downAp7 ⟨1, 0, 0⟩ = specColumnMatrixApply ⟨3, 1, 0⟩ ⟨0, 3, 1⟩ ⟨1, 0, 3⟩ ⟨1, 0, 0⟩ ∧
      _downAp7r ⟨1, 0, 0⟩ = specColumnMatrixApply ⟨3, 0, 1⟩ ⟨1, 3, 0⟩ ⟨0, 1, 3⟩ ⟨1, 0, 0⟩) := by
  decide

/-- C7 (amended): the two aperture-7 down-step matrices are the other way around —
for every IJK coordinate, _downAp7 is the normalization of the coordinate multiplied
by the column matrix (3,0,1),(1,3,0),(0,1,3), and _downAp7r by the column matrix
(3,1,0),(0,3,1),(1,0,3). -/
theorem C7_downAp7_matrices (v : CoordIJK) :
    _downAp7 v = specColumnMatrixApply ⟨3, 0, 1⟩ ⟨1, 3, 0⟩ ⟨0, 1, 3⟩ v ∧
    _downAp7r v = specColumnMatrixApply ⟨3, 1, 0⟩ ⟨0, 3, 1⟩ ⟨1, 0, 3⟩ v :=
  ⟨rfl, rfl⟩

/-- C8: expanding an index to its own resolution writes exactly one entry — the index
itself — at the start of the output buffer and leaves every other entry unchanged. -/
theorem C8_children_same_res (h : Nat) (children : List Nat) :
    h3ToChildren h (H3_GET_RESOLUTION h) children = children.set 0 h := by
  have hval : _isValidChildRes (H3_GET_RESOLUTION h) (H3_GET_RESOLUTION h) = true := by
    unfold _isValidChildRes
    have h15 : H3_GET_RESOLUTION h < 16 := getBits_lt h 52 4
    simp only [decide_eq_true_eq]
    refine ⟨by positivity, le_refl _, by exact_mod_cast Nat.le_of_lt_succ h15⟩
  show h3ToChildrenGo (15 + 1) h (H3_GET_RESOLUTION h) children 0 = children.set 0 h
  rw [h3ToChildrenGo]
  simp [hval]

/-- C9: when the requested child resolution is not a valid child resolution of the
index (it is below the resolution of the index or above 15), h3ToChildren returns
without writing: the output buffer is unchanged. -/
theorem C9_children_invalid_res_frame (h : Nat) (childRes : Int) (children : List Nat)
    (hbad : childRes < (H3_GET_RESOLUTION h : Int) ∨ 15 < childRes) :
    h3ToChildren h childRes children = children := by
  have hval : _isValidChildRes (H3_GET_RESOLUTION h) childRes = false := by
    unfold _isValidChildRes
    simp only [decide_eq_false_iff_not]
    rintro ⟨h1, h2, h3⟩
    omega
  show h3ToChildrenGo (15 + 1) h childRes children 0 = children
  rw [h3ToChildrenGo]
  simp [hval]

/-- C9 witness: the index 0 has resolution 0, and a request for child resolution -1 is
invalid, so the buffer [5, 6] is returned untouched. -/
theorem C9_children_invalid_res_frame_witness :
    ((-1 : Int) < (H3_GET_RESOLUTION 0 : Int) ∨ 15 < (-1 : Int)) ∧
    h3ToChildren 0 (-1) [5, 6] = [5, 6] :=
  ⟨by decide, C9_children_invalid_res_frame 0 (-1) [5, 6] (by decide)⟩


/-- C6: for a coordinate strictly inside the face (i+j+k < maxDim, where maxDim is
maxDimByCIIres[res], tripled on a substrate grid), _adjustOverageClassII reports
NO_OVERAGE and returns the FaceIJK unchanged; on a substrate grid with i+j+k equal to
maxDim exactly it reports FACE_EDGE, also leaving the FaceIJK unchanged. -/
theorem C6_adjustOverage_frame (fijk : FaceIJK) (res : Nat) (pentLeading4 substrate : Bool)
    (hres : res ≤ 16) :
    (fijk.coord.i + fijk.coord.j + fijk.coord.k <
        (if substrate then maxDimByCIIres.getD res 0 * 3 else maxDimByCIIres.getD res 0) →
      _adjustOverageClassII fijk res pentLeading4 substrate = (Overage.NO_OVERAGE, fijk)) ∧
    (substrate = true →
      fijk.coord.i + fijk.coord.j + fijk.coord.k = maxDimByCIIres.getD res 0 * 3 →
      _adjustOverageClassII fijk res pentLeading4 substrate = (Overage.FACE_EDGE, fijk)) := by
  cases substrate with
  | false =>
    refine ⟨fun hlt => ?_, fun hsub _ => by simp at hsub⟩
    unfold _adjustOverageClassII
    simp only [Bool.false_and, Bool.false_eq_true, if_false] at hlt ⊢
    rw [if_neg (by omega)]
  | true =>
    refine ⟨fun hlt => ?_, fun _ heq => ?_⟩
    · unfold _adjustOverageClassII
      simp only [Bool.true_and, beq_iff_eq, eq_self_iff_true, if_true] at hlt ⊢
      rw [if_neg (by omega), if_neg (by omega)]
    · unfold _adjustOverageClassII
      simp only [Bool.true_and, beq_iff_eq, eq_self_iff_true, if_true]
      rw [if_pos heq]

/-- C6 witness: at resolution 0 (maxDim 2), the origin coordinate is strictly inside
the face, and on the substrate grid (maxDim 6) the coordinate (1,2,3) lies exactly on
the face edge. -/
theorem C6_adjustOverage_frame_witness :
    _adjustOverageClassII ⟨0, ⟨0, 0, 0⟩⟩ 0 false false = (Overage.NO_OVERAGE, ⟨0, ⟨0, 0, 0⟩⟩) ∧
    _adjustOverageClassII ⟨0, ⟨1, 2, 3⟩⟩ 0 false true = (Overage.FACE_EDGE, ⟨0, ⟨1, 2, 3⟩⟩) :=
  ⟨(C6_adjustOverage_frame ⟨0, ⟨0, 0, 0⟩⟩ 0 false false (by norm_num)).1 (by decide),
   (C6_adjustOverage_frame ⟨0, ⟨1, 2, 3⟩⟩ 0 false true (by norm_num)).2 rfl (by decide)⟩

/-- C5: counterexample.  The edge word with mode UNI_EDGE, direction K (1), and the
valid non-pentagon origin of base cell 0 at resolution 0 is accepted by
h3UnidirectionalEdgeIsValid, although its direction is not in the claimed range 2..6. -/
theorem C5_counterexample :
    h3UnidirectionalEdgeIsValid (2 ^ 60 + 2 ^ 56 + (2 ^ 45 - 1)) = 1 ∧
    ¬ specEdgeValidProp (2 ^ 60 + 2 ^ 56 + (2 ^ 45 - 1)) := by
  constructor
  · decide
  · decide

/-- C5 (amended): h3UnidirectionalEdgeIsValid returns 1 exactly when the mode is
UNI_EDGE (2), the direction in the reserved field is in the range 1..6, the direction
is not K (1) when the origin cell is a pentagon, and the origin cell embedded in the
edge is itself a valid cell. -/
theorem C5_edge_valid_iff (edge : Nat) :
    h3UnidirectionalEdgeIsValid edge = 1 ↔
      (H3_GET_MODE edge = 2 ∧ 1 ≤ H3_GET_RESERVED_BITS edge ∧ H3_GET_RESERVED_BITS edge ≤ 6 ∧
       (h3IsPentagon (getOriginH3IndexFromUnidirectionalEdge edge) = true →
         H3_GET_RESERVED_BITS edge ≠ 1) ∧
       h3IsValid (getOriginH3IndexFromUnidirectionalEdge edge) = true) := by
  simp only [h3UnidirectionalEdgeIsValid]
  split_ifs with h1 h2 h3 h4
  · exact iff_of_false (by norm_num) (fun hx => h1 hx.1)
  · exact iff_of_false (by norm_num) (fun hx => by obtain ⟨_, hge, hle, _, _⟩ := hx; omega)
  · simp only [Bool.and_eq_true, beq_iff_eq] at h3
    exact iff_of_false (by norm_num) (fun hx => hx.2.2.2.1 h3.1 h3.2)
  · refine iff_of_true rfl ⟨not_not.mp h1, by omega, by omega, ?_, h4⟩
    intro hp hd
    exact h3 (by simp [hp, hd])
  · exact iff_of_false (by norm_num) (fun hx => h4 hx.2.2.2.2)

/-- uncompact is insensitive to H3_NULL entries: removing the zeros from the input
changes neither the return code nor the written buffer (induction helper over the
input list, generalized over the buffer state and offset). -/
theorem uncompactGo_filter (l : List Nat) : ∀ (buf : List Nat) (off : Nat) (maxHexes res : Int),
    uncompactGo (l.filter fun c => !(c == 0)) buf off maxHexes res =
      uncompactGo l buf off maxHexes res := by
  induction l with
  | nil => intro buf off mh r; rfl
  | cons c rest ih =>
    intro buf off mh r
    by_cases hc : c = 0
    · subst hc
      rw [List.filter_cons_of_neg (by simp)]
      simp [uncompactGo, ih]
    · rw [List.filter_cons_of_pos (by simp [hc])]
      simp only [uncompactGo]
      split_ifs <;> first | rfl | apply ih

/-- maxUncompactSize is insensitive to H3_NULL entries (induction helper generalized
over the accumulator). -/
theorem maxUncompactSizeGo_filter (l : List Nat) : ∀ (res acc : Int),
    maxUncompactSizeGo (l.filter fun c => !(c == 0)) res acc =
      maxUncompactSizeGo l res acc := by
  induction l with
  | nil => intro r acc; rfl
  | cons c rest ih =>
    intro r acc
    by_cases hc : c = 0
    · subst hc
      rw [List.filter_cons_of_neg (by simp)]
      simp [maxUncompactSizeGo, ih]
    · rw [List.filter_cons_of_pos (by simp [hc])]
      simp only [maxUncompactSizeGo]
      split_ifs <;> first | rfl | apply ih

/-- C10: uncompact and maxUncompactSize both skip H3_NULL (0) input entries — the
result (return code, written buffer, size estimate) on any input equals the result on
the input with all zero entries removed, so interspersed null placeholders contribute
nothing and never trigger the resolution-validity error. -/
theorem C10_null_entries_skipped (compactedSet h3Set : List Nat) (maxHexes res : Int) :
    uncompact (compactedSet.filter fun c => !(c == 0)) h3Set maxHexes res =
      uncompact compactedSet h3Set maxHexes res ∧
    maxUncompactSize (compactedSet.filter fun c => !(c == 0)) res =
      maxUncompactSize compactedSet res :=
  ⟨uncompactGo_filter compactedSet h3Set 0 maxHexes res,
   maxUncompactSizeGo_filter compactedSet res 0⟩

/-- Reconstruction step for the 64-bit word: extend a known low part by the next known
bitfield. -/
theorem mod_pow_step (h k w a b : Nat) (h1 : h % 2 ^ k = a) (h2 : h / 2 ^ k % 2 ^ w = b) :
    h % 2 ^ (k + w) = a + 2 ^ k * b := by
  rw [pow_add, Nat.mod_mul, h1, h2]

set_option maxHeartbeats 3200000 in
/-- C2 (amended): expanding any valid pentagon cell of resolution 1 to child
resolution 3 writes exactly (5*7)+6 = 41 non-null child indexes into the 7^2-entry
output buffer, the remaining 7^2 - 41 = 8 entries being the null placeholder H3_NULL
(the count the test suite expects in src/src/testapps/testH3ToChildren.c). -/
theorem C2_pentagon_children_count (h : Nat) (hword : h < 2 ^ 64)
    (hv : h3IsValid h = true) (hres : H3_GET_RESOLUTION h = 1)
    (hpent : h3IsPentagon h = true) :
    (h3ToChildren h 3 (List.replicate 49 0)).countP (fun x => !(x == 0)) = 41 ∧
    (h3ToChildren h 3 (List.replicate 49 0)).countP (fun x => x == 0) = 7 ^ 2 - 41 := by
  unfold h3IsValid at hv
  rw [hres] at hv
  have hr1 : List.range' 1 1 = [1] := rfl
  have hr2 : List.range' (1 + 1) (15 - 1) = [2,3,4,5,6,7,8,9,10,11,12,13,14,15] := rfl
  rw [hr1, hr2] at hv
  simp only [List.all_cons, List.all_nil, Bool.and_eq_true, Bool.and_true, beq_iff_eq,
    bne_iff_ne, decide_eq_true_eq] at hv
  obtain ⟨⟨⟨⟨⟨⟨hhigh, hmode⟩, hrsv⟩, hbc⟩, _⟩, _⟩, hd2, hd3, hd4, hd5, hd6, hd7, hd8, hd9,
    hd10, hd11, hd12, hd13, hd14, hd15⟩ := hv
  unfold h3IsPentagon at hpent
  simp only [Bool.and_eq_true, beq_iff_eq] at hpent
  obtain ⟨hbcp, hlead⟩ := hpent
  have hd1 : H3_GET_INDEX_DIGIT h 1 = 0 := by
    by_cases hd : H3_GET_INDEX_DIGIT h 1 = 0
    · exact hd
    · exfalso
      unfold _h3LeadingNonZeroDigit at hlead
      rw [hres, hr1] at hlead
      simp only [List.find?] at hlead
      rw [show (H3_GET_INDEX_DIGIT h 1 != 0) = true from by simpa using hd] at hlead
      simp at hlead
      exact hd hlead
  have hmem : H3_GET_BASE_CELL h ∈ pentagonBaseCells := by
    unfold _isBaseCellPentagon at hbcp
    simpa using hbcp
  -- reconstruct the word from its pinned bitfields, three bits at a time
  have m3 : h % 2 ^ 3 = 7 := by simpa [H3_GET_INDEX_DIGIT, getBits] using hd15
  have m6 : h % 2 ^ 6 = 63 := by
    simpa using mod_pow_step h 3 3 _ _ m3 (by simpa [H3_GET_INDEX_DIGIT, getBits] using hd14)
  have m9 : h % 2 ^ 9 = 511 := by
    simpa using mod_pow_step h 6 3 _ _ m6 (by simpa [H3_GET_INDEX_DIGIT, getBits] using hd13)
  have m12 : h % 2 ^ 12 = 4095 := by
    simpa using mod_pow_step h 9 3 _ _ m9 (by simpa [H3_GET_INDEX_DIGIT, getBits] using hd12)
  have m15 : h % 2 ^ 15 = 32767 := by
    simpa using mod_pow_step h 12 3 _ _ m12 (by simpa [H3_GET_INDEX_DIGIT, getBits] using hd11)
  have m18 : h % 2 ^ 18 = 262143 := by
    simpa using mod_pow_step h 15 3 _ _ m15 (by simpa [H3_GET_INDEX_DIGIT, getBits] using hd10)
  have m21 : h % 2 ^ 21 = 2097151 := by
    simpa using mod_pow_step h 18 3 _ _ m18 (by simpa [H3_GET_INDEX_DIGIT, getBits] using hd9)
  have m24 : h % 2 ^ 24 = 16777215 := by
    simpa using mod_pow_step h 21 3 _ _ m21 (by simpa [H3_GET_INDEX_DIGIT, getBits] using hd8)
  have m27 : h % 2 ^ 27 = 134217727 := by
    simpa using mod_pow_step h 24 3 _ _ m24 (by simpa [H3_GET_INDEX_DIGIT, getBits] using hd7)
  have m30 : h % 2 ^ 30 = 1073741823 := by
    simpa using mod_pow_step h 27 3 _ _ m27 (by simpa [H3_GET_INDEX_DIGIT, getBits] using hd6)
  have m33 : h % 2 ^ 33 = 8589934591 := by
    simpa using mod_pow_step h 30 3 _ _ m30 (by simpa [H3_GET_INDEX_DIGIT, getBits] using hd5)
  have m36 : h % 2 ^ 36 = 68719476735 := by
    simpa using mod_pow_step h 33 3 _ _ m33 (by simpa [H3_GET_INDEX_DIGIT, getBits] using hd4)
  have m39 : h % 2 ^ 39 = 549755813887 := by
    simpa using mod_pow_step h 36 3 _ _ m36 (by simpa [H3_GET_INDEX_DIGIT, getBits] using hd3)
  have m42 : h % 2 ^ 42 = 4398046511103 := by
    simpa using mod_pow_step h 39 3 _ _ m39 (by simpa [H3_GET_INDEX_DIGIT, getBits] using hd2)
  have m45 : h % 2 ^ 45 = 4398046511103 := by
    simpa using mod_pow_step h 42 3 _ _ m42 (by simpa [H3_GET_INDEX_DIGIT, getBits] using hd1)
  have m52 : h % 2 ^ 52 = 4398046511103 + 2 ^ 45 * H3_GET_BASE_CELL h :=
    mod_pow_step h 45 7 _ _ m45 rfl
  have m56 : h % 2 ^ 56 = 4398046511103 + 2 ^ 45 * H3_GET_BASE_CELL h + 2 ^ 52 := by
    simpa [Nat.mul_one] using
      mod_pow_step h 52 4 _ _ m52 (by simpa [H3_GET_RESOLUTION, getBits] using hres)
  have m59 : h % 2 ^ 59 = 4398046511103 + 2 ^ 45 * H3_GET_BASE_CELL h + 2 ^ 52 := by
    simpa using
      mod_pow_step h 56 3 _ _ m56 (by simpa [H3_GET_RESERVED_BITS, getBits] using hrsv)
  have m63 : h % 2 ^ 63 = 4398046511103 + 2 ^ 45 * H3_GET_BASE_CELL h + 2 ^ 52 + 2 ^ 59 := by
    simpa [Nat.mul_one] using
      mod_pow_step h 59 4 _ _ m59 (by simpa [H3_GET_MODE, getBits] using hmode)
  have hfin : h = 4398046511103 + 2 ^ 45 * H3_GET_BASE_CELL h + 2 ^ 52 + 2 ^ 59 := by
    have m64 : h % 2 ^ 64 = 4398046511103 + 2 ^ 45 * H3_GET_BASE_CELL h + 2 ^ 52 + 2 ^ 59 := by
      simpa using
        mod_pow_step h 63 1 _ _ m63 (by simpa [H3_GET_HIGH_BIT, getBits] using hhigh)
    calc h = h % 2 ^ 64 := (Nat.mod_eq_of_lt hword).symm
      _ = 4398046511103 + 2 ^ 45 * H3_GET_BASE_CELL h + 2 ^ 52 + 2 ^ 59 := m64
  simp only [pentagonBaseCells, List.mem_cons, List.not_mem_nil, or_false] at hmem
  rcases hmem with hb | hb | hb | hb | hb | hb | hb | hb | hb | hb | hb | hb <;>
    rw [hb] at hfin <;> rw [hfin] <;> decide

set_option maxHeartbeats 1600000 in
/-- C2: counterexample.  The pentagon cell with base cell 4 at resolution 1 (the input
of the pentagonChildren test in src/src/testapps/testH3ToChildren.c) expanded to child
resolution 3 yields 41 non-null children — not 329, which could not even fit in the
7^2 = 49-entry output buffer. -/
theorem C2_counterexample :
    (h3ToChildren (setH3Index 1 4 0) 3 (List.replicate 49 0)).countP (fun x => !(x == 0)) = 41 ∧
    (41 : Nat) ≠ 329 := by
  exact ⟨by decide, by decide⟩

set_option maxHeartbeats 1600000 in
/-- C2 witness: the amended pentagon children count, instantiated at the concrete
pentagon of the test suite. -/
theorem C2_pentagon_children_count_witness :
    h3IsValid (setH3Index 1 4 0) = true ∧
    ((h3ToChildren (setH3Index 1 4 0) 3 (List.replicate 49 0)).countP
        (fun x => !(x == 0)) = 41 ∧
     (h3ToChildren (setH3Index 1 4 0) 3 (List.replicate 49 0)).countP
        (fun x => x == 0) = 7 ^ 2 - 41) :=
  ⟨by decide,
   C2_pentagon_children_count (setH3Index 1 4 0) (by decide) (by decide) (by decide) (by decide)⟩

/-! ## Bitfield and probe lemmas for the duplicate-detection analysis of compact -/

theorem getReserved_setReserved (p k : Nat) (hk : k < 8) :
    H3_GET_RESERVED_BITS (H3_SET_RESERVED_BITS p k) = k :=
  getBits_setBits_self p 56 3 k hk

theorem mode_setReserved (p k : Nat) (hk : k < 8) :
    H3_GET_MODE (H3_SET_RESERVED_BITS p k) = H3_GET_MODE p :=
  getBits_setBits_high p 56 3 k 59 4 hk (by norm_num)

theorem clearReserved_setReserved (p k : Nat) (hk : k < 8) :
    clearReservedBits (H3_SET_RESERVED_BITS p k) = clearReservedBits p := by
  unfold clearReservedBits H3_SET_RESERVED_BITS setBits
  omega

theorem clearReserved_of_zero (p : Nat) (hp : H3_GET_RESERVED_BITS p = 0) :
    clearReservedBits p = p := by
  unfold H3_GET_RESERVED_BITS getBits at hp
  unfold clearReservedBits
  omega

theorem setReserved_zero (p : Nat) (hp : H3_GET_RESERVED_BITS p = 0) :
    H3_SET_RESERVED_BITS p 0 = p := by
  unfold H3_GET_RESERVED_BITS getBits at hp
  unfold H3_SET_RESERVED_BITS setBits
  omega

theorem ne_zero_of_mode (p : Nat) (hm : H3_GET_MODE p = 1) : p ≠ 0 := by
  intro h0
  rw [h0] at hm
  simp [H3_GET_MODE, getBits] at hm

/-- h3ToParent one resolution up: for an index of resolution at least 1 it sets the
resolution down by one and writes 7 into the vacated digit slot. -/
theorem h3ToParent_res_sub_one (c : Nat) (hres : 1 ≤ H3_GET_RESOLUTION c) :
    h3ToParent c ((H3_GET_RESOLUTION c : Int) - 1) =
      H3_SET_INDEX_DIGIT (H3_SET_RESOLUTION c (H3_GET_RESOLUTION c - 1))
        (H3_GET_RESOLUTION c) 7 := by
  have h16 : H3_GET_RESOLUTION c < 16 := getBits_lt c 52 4
  simp only [h3ToParent]
  rw [if_neg (by omega), if_neg (by omega), if_neg (by omega)]
  rw [show ((H3_GET_RESOLUTION c : Int) - ((H3_GET_RESOLUTION c : Int) - 1)).toNat = 1
    from by omega]
  rw [show ((H3_GET_RESOLUTION c : Int) - 1).toNat = H3_GET_RESOLUTION c - 1 from by omega]
  rw [show List.range 1 = [0] from rfl]
  rw [List.foldl_cons, List.foldl_nil]
  rw [show H3_GET_RESOLUTION c - 1 + 1 + 0 = H3_GET_RESOLUTION c from by omega]

theorem reserved_parent (c : Nat) (hres : 1 ≤ H3_GET_RESOLUTION c)
    (hrsv : H3_GET_RESERVED_BITS c = 0) :
    H3_GET_RESERVED_BITS (h3ToParent c ((H3_GET_RESOLUTION c : Int) - 1)) = 0 := by
  have h16 : H3_GET_RESOLUTION c < 16 := getBits_lt c 52 4
  rw [h3ToParent_res_sub_one c hres]
  unfold H3_GET_RESERVED_BITS H3_SET_INDEX_DIGIT H3_SET_RESOLUTION
  rw [getBits_setBits_high _ _ _ _ _ _ (by norm_num) (by omega),
    getBits_setBits_high _ _ _ _ _ _ (by omega) (by norm_num)]
  exact hrsv

theorem mode_parent (c : Nat) (hres : 1 ≤ H3_GET_RESOLUTION c)
    (hmode : H3_GET_MODE c = 1) :
    H3_GET_MODE (h3ToParent c ((H3_GET_RESOLUTION c : Int) - 1)) = 1 := by
  have h16 : H3_GET_RESOLUTION c < 16 := getBits_lt c 52 4
  rw [h3ToParent_res_sub_one c hres]
  unfold H3_GET_MODE H3_SET_INDEX_DIGIT H3_SET_RESOLUTION
  rw [getBits_setBits_high _ _ _ _ _ _ (by norm_num) (by omega),
    getBits_setBits_high _ _ _ _ _ _ (by omega) (by norm_num)]
  exact hmode

theorem except_bind_ok {ε α β : Type} (a : α) (f : α → Except ε β) :
    ((Except.ok a : Except ε α) >>= f) = f a := rfl

theorem except_bind_error {ε α β : Type} (e : ε) (f : α → Except ε β) :
    ((Except.error e : Except ε α) >>= f) = Except.error e := rfl

/-- One-step unfolding of the pass-1 probe loop. -/
theorem compactProbe1_succ (fuel : Nat) (hashSet : List Nat)
    (loc parent loopCount numRemaining : Nat) :
    compactProbe1 (fuel + 1) hashSet loc parent loopCount numRemaining =
      if hashSet.getD loc 0 = 0 then .ok (hashSet.set loc parent)
      else if loopCount > numRemaining then .error (-1)
      else if clearReservedBits (hashSet.getD loc 0) = parent then
        if H3_GET_RESERVED_BITS (hashSet.getD loc 0) + 1 + 1 >
            (if h3IsPentagon (clearReservedBits (clearReservedBits (hashSet.getD loc 0)))
              then 6 else 7) then .error (-2)
        else
          compactProbe1 fuel (hashSet.set loc 0) loc
            (H3_SET_RESERVED_BITS parent (H3_GET_RESERVED_BITS (hashSet.getD loc 0) + 1))
            (loopCount + 1) numRemaining
      else compactProbe1 fuel hashSet ((loc + 1) % numRemaining) parent (loopCount + 1)
        numRemaining := rfl

/-- One-step unfolding of pass 1. -/
theorem compactPass1_cons (curr : Nat) (rest hashSet : List Nat)
    (parentRes : Int) (numRemaining : Nat) :
    compactPass1 (curr :: rest) hashSet parentRes numRemaining =
      if curr ≠ 0 then
        compactProbe1 (numRemaining + 2) hashSet
            (h3ToParent curr parentRes % numRemaining) (h3ToParent curr parentRes) 0
            numRemaining >>= fun hashSet2 =>
          compactPass1 rest hashSet2 parentRes numRemaining
      else compactPass1 rest hashSet parentRes numRemaining := rfl

/-- One-step unfolding of the round loop of compact. -/
theorem compactLoop_succ (fuel : Nat) (remaining outAcc : List Nat) :
    compactLoop (fuel + 1) remaining outAcc =
      if remaining = [] then .ok outAcc
      else
        compactPass1 remaining (List.replicate remaining.length 0)
            ((H3_GET_RESOLUTION (remaining.headD 0) : Int) - 1) remaining.length >>=
          fun hashSet1 =>
            if remaining.length / 6 = 0 then .ok (outAcc ++ remaining)
            else
              compactPass2 remaining (compactableScan remaining.length hashSet1).1
                  ((H3_GET_RESOLUTION (remaining.headD 0) : Int) - 1)
                  remaining.length >>=
                fun uncompactable =>
                  compactLoop fuel (compactableScan remaining.length hashSet1).2
                    (outAcc ++ uncompactable) := rfl

/-- Probing an empty hash table inserts the parent (whose reserved counter is 0). -/
theorem compactProbe1_fresh (p n fuel : Nat) (hn : 0 < n)
    (hrsv : H3_GET_RESERVED_BITS p = 0) :
    compactProbe1 (fuel + 2) (List.replicate n 0) (p % n) p 0 n =
      .ok ((List.replicate n 0).set (p % n) (H3_SET_RESERVED_BITS p 0)) := by
  rw [setReserved_zero p hrsv]
  rw [show fuel + 2 = fuel + 1 + 1 from rfl]
  rw [compactProbe1_succ]
  rw [if_pos (getD_replicate_zero n (p % n))]

/-- Probing a table whose home slot already holds the same parent with sibling count k
increments the counter, when the incremented count stays within the limit. -/
theorem compactProbe1_occupied (p n k fuel : Nat) (hn : 0 < n)
    (hrsv : H3_GET_RESERVED_BITS p = 0) (hmode : H3_GET_MODE p = 1) (hk : k < 8)
    (hlim : k + 2 ≤ (if h3IsPentagon p then 6 else 7)) :
    compactProbe1 (fuel + 2)
      ((List.replicate n 0).set (p % n) (H3_SET_RESERVED_BITS p k)) (p % n) p 0 n =
      .ok ((List.replicate n 0).set (p % n) (H3_SET_RESERVED_BITS p (k + 1))) := by
  have hloc : p % n < (List.replicate n (0 : Nat)).length := by
    simpa using Nat.mod_lt p hn
  have hstored : ((List.replicate n 0).set (p % n) (H3_SET_RESERVED_BITS p k)).getD (p % n) 0
      = H3_SET_RESERVED_BITS p k := getD_set_self _ _ _ hloc
  have hsne : H3_SET_RESERVED_BITS p k ≠ 0 :=
    ne_zero_of_mode _ (by rw [mode_setReserved p k hk, hmode])
  rw [show fuel + 2 = fuel + 1 + 1 from rfl]
  rw [compactProbe1_succ, hstored]
  rw [if_neg hsne, if_neg (by omega : ¬ (0 > n))]
  rw [clearReserved_setReserved p k hk, clearReserved_of_zero p hrsv]
  rw [if_pos rfl, getReserved_setReserved p k hk]
  rw [clearReserved_of_zero p hrsv]
  rw [if_neg (by omega)]
  rw [List.set_set]
  rw [compactProbe1_succ]
  rw [if_pos (getD_set_self _ _ _ hloc)]
  rw [List.set_set]

/-- Probing a table whose home slot holds the same parent with sibling count k returns
COMPACT_DUPLICATE when the incremented count exceeds the limit (7, or 6 for a pentagon
parent). -/
theorem compactProbe1_dup (p n k fuel : Nat) (hn : 0 < n)
    (hrsv : H3_GET_RESERVED_BITS p = 0) (hmode : H3_GET_MODE p = 1) (hk : k < 8)
    (hlim : (if h3IsPentagon p then 6 else 7) < k + 2) :
    compactProbe1 (fuel + 2)
      ((List.replicate n 0).set (p % n) (H3_SET_RESERVED_BITS p k)) (p % n) p 0 n =
      .error (-2) := by
  have hloc : p % n < (List.replicate n (0 : Nat)).length := by
    simpa using Nat.mod_lt p hn
  have hstored : ((List.replicate n 0).set (p % n) (H3_SET_RESERVED_BITS p k)).getD (p % n) 0
      = H3_SET_RESERVED_BITS p k := getD_set_self _ _ _ hloc
  have hsne : H3_SET_RESERVED_BITS p k ≠ 0 :=
    ne_zero_of_mode _ (by rw [mode_setReserved p k hk, hmode])
  rw [show fuel + 2 = fuel + 1 + 1 from rfl]
  rw [compactProbe1_succ, hstored]
  rw [if_neg hsne, if_neg (by omega : ¬ (0 > n))]
  rw [clearReserved_setReserved p k hk, clearReserved_of_zero p hrsv]
  rw [if_pos rfl, getReserved_setReserved p k hk]
  rw [clearReserved_of_zero p hrsv]
  rw [if_pos (by omega)]

/-- Hashing m further copies of the same cell into a table holding its parent with
sibling count k: the counter climbs to k + m if it stays within the limit, and the
hashing pass fails with COMPACT_DUPLICATE as soon as it would pass the limit. -/
theorem compactPass1_replicate (c p : Nat) (pr : Int) (n : Nat) (hn : 0 < n)
    (hc : c ≠ 0) (hp : h3ToParent c pr = p)
    (hrsv : H3_GET_RESERVED_BITS p = 0) (hmode : H3_GET_MODE p = 1) :
    ∀ m k, k + 1 ≤ (if h3IsPentagon p then 6 else 7) →
      compactPass1 (List.replicate m c)
        ((List.replicate n 0).set (p % n) (H3_SET_RESERVED_BITS p k)) pr n =
      if k + m + 1 ≤ (if h3IsPentagon p then 6 else 7) then
        .ok ((List.replicate n 0).set (p % n) (H3_SET_RESERVED_BITS p (k + m)))
      else .error (-2) := by
  intro m
  induction m with
  | zero =>
    intro k hk1
    rw [if_pos (by omega)]
    simp [compactPass1]
  | succ m ih =>
    intro k hk1
    have hk8 : k < 8 := by
      have hle : (if h3IsPentagon p then 6 else 7) ≤ 7 := by split <;> omega
      omega
    rw [List.replicate_succ, compactPass1_cons, if_pos hc, hp]
    by_cases hstep : k + 2 ≤ (if h3IsPentagon p then 6 else 7)
    · rw [compactProbe1_occupied p n k n hn hrsv hmode hk8 hstep]
      rw [except_bind_ok]
      rw [ih (k + 1) (by omega)]
      rw [show k + 1 + m = k + (m + 1) from by omega]
    · rw [compactProbe1_dup p n k n hn hrsv hmode hk8 (by omega)]
      rw [except_bind_error]
      rw [if_neg (by omega)]

/-- C4 (amended): compact detects a duplicate exactly when some parent is hashed past
its sibling limit — more than 7 times, or more than 6 times for a pentagon parent.  In
particular an input repeating one valid cell of resolution at least 1 eight times (seven
times when its parent is a pentagon) is rejected with COMPACT_DUPLICATE = -2. -/
theorem C4_duplicate_detection (c : Nat) (hv : h3IsValid c = true)
    (hres : 1 ≤ H3_GET_RESOLUTION c) :
    (h3IsPentagon (h3ToParent c ((H3_GET_RESOLUTION c : Int) - 1)) = false →
      compact (List.replicate 8 c) = .error (-2)) ∧
    (h3IsPentagon (h3ToParent c ((H3_GET_RESOLUTION c : Int) - 1)) = true →
      compact (List.replicate 7 c) = .error (-2)) := by
  have hv2 := hv
  unfold h3IsValid at hv2
  simp only [Bool.and_eq_true, beq_iff_eq, decide_eq_true_eq] at hv2
  obtain ⟨⟨⟨⟨⟨⟨_, hvmode⟩, hvrsv⟩, _⟩, _⟩, _⟩, _⟩ := hv2
  have hcne : c ≠ 0 := ne_zero_of_mode c hvmode
  have hprsv := reserved_parent c hres hvrsv
  have hpmode := mode_parent c hres hvmode
  constructor
  · intro hpent
    have hlim7 : (if h3IsPentagon (h3ToParent c ((H3_GET_RESOLUTION c : Int) - 1))
        then 6 else 7) = 7 := by rw [hpent]; simp
    unfold compact
    rw [if_neg (by simp)]
    rw [show (List.replicate 8 c).headD 0 = c from rfl]
    rw [if_neg (by omega)]
    show compactLoop (19 + 1) (List.replicate 8 c) [] = Except.error (-2)
    rw [compactLoop_succ]
    rw [if_neg (by simp)]
    rw [show (List.replicate 8 c).length = 8 from by simp]
    rw [show (List.replicate 8 c).headD 0 = c from rfl]
    rw [show List.replicate 8 c = c :: List.replicate 7 c from rfl]
    rw [compactPass1_cons, if_pos hcne]
    rw [compactProbe1_fresh (h3ToParent c ((H3_GET_RESOLUTION c : Int) - 1)) 8 8
      (by norm_num) hprsv]
    rw [except_bind_ok]
    rw [compactPass1_replicate c _ _ 8 (by norm_num) hcne rfl hprsv hpmode 7 0
      (by rw [hlim7]; omega)]
    rw [hlim7]
    rw [if_neg (by omega)]
    rw [except_bind_error]
  · intro hpent
    have hlim6 : (if h3IsPentagon (h3ToParent c ((H3_GET_RESOLUTION c : Int) - 1))
        then 6 else 7) = 6 := by rw [hpent]; simp
    unfold compact
    rw [if_neg (by simp)]
    rw [show (List.replicate 7 c).headD 0 = c from rfl]
    rw [if_neg (by omega)]
    show compactLoop (19 + 1) (List.replicate 7 c) [] = Except.error (-2)
    rw [compactLoop_succ]
    rw [if_neg (by simp)]
    rw [show (List.replicate 7 c).length = 7 from by simp]
    rw [show (List.replicate 7 c).headD 0 = c from rfl]
    rw [show List.replicate 7 c = c :: List.replicate 6 c from rfl]
    rw [compactPass1_cons, if_pos hcne]
    rw [compactProbe1_fresh (h3ToParent c ((H3_GET_RESOLUTION c : Int) - 1)) 7 7
      (by norm_num) hprsv]
    rw [except_bind_ok]
    rw [compactPass1_replicate c _ _ 7 (by norm_num) hcne rfl hprsv hpmode 6 0
      (by rw [hlim6]; omega)]
    rw [hlim6]
    rw [if_neg (by omega)]
    rw [except_bind_error]

set_option maxHeartbeats 1600000 in
/-- C4: counterexample.  An input containing the same valid resolution-1 cell exactly
twice is compacted with success code 0 (the duplicate cell is simply copied to the
output twice); COMPACT_DUPLICATE is not returned. -/
theorem C4_counterexample :
    compact [setH3Index 1 0 0, setH3Index 1 0 0] =
      .ok [setH3Index 1 0 0, setH3Index 1 0 0] ∧
    (Except.ok [setH3Index 1 0 0, setH3Index 1 0 0] : Except Int (List Nat)) ≠
      .error (-2) :=
  ⟨by rfl, fun hx => Except.noConfusion hx⟩

set_option maxHeartbeats 1600000 in
/-- C4 witness: eight copies of the resolution-1 cell of base cell 0 are rejected with
COMPACT_DUPLICATE. -/
theorem C4_duplicate_detection_witness :
    h3IsValid (setH3Index 1 0 0) = true ∧
    compact (List.replicate 8 (setH3Index 1 0 0)) = .error (-2) :=
  ⟨by decide,
   (C4_duplicate_detection (setH3Index 1 0 0) (by decide) (by decide)).1 (by decide)⟩
